import Mathlib

/-!
# code-timer: session tracking core

A shallow embedding of `main.go`: the `Session` record, the watcher's event
fold (`monitorFolder`), the persistence pass (`saveSession`) and the lock
usage of the three tasks, followed by the properties proved about them.

Conventions of the embedding

* Go strings are Lean strings (paths are taken to be valid UTF-8 text).
* `time.Time` is an instant on one time line, an integer count of
  nanoseconds; every call of `time.Now()` is an explicit argument holding the
  reading the clock returned for that call.
* Results of operating-system calls (`os.MkdirAll`, `os.WriteFile`) are
  explicit arguments: `none` for success, `some err` for a failure.
* Functions of the Go standard library whose tables or platform rules are not
  part of the repository are fields of `Lib`.
* Console output is a list of `Line` values, one constructor per print
  statement of the source, carrying the statement's arguments.
-/

namespace CodeTimer

/-- An instant as returned by `time.Now()`, in nanoseconds. -/
abbrev Time := Int

/-- Library functions used by `main.go` that are defined outside the
repository. -/
structure Lib where
  /-- The predicate `os.IsPathSeparator`. -/
  isPathSeparator : Char → Bool
  /-- The rune mapping `unicode.ToLower`. -/
  unicodeToLower : Char → Char
  /-- The rendering `time.Duration.String` of a nanosecond count. -/
  durationString : Int → String
  /-- The rendering `Time.Format("2006-01-02_15-04-05")`. -/
  formatStamp : Time → String
  /-- The two-argument use of `filepath.Join`. -/
  joinPath : String → String → String

/-- The struct `Session` of the source (lines 18-24). -/
structure Session where
  Folder : String
  StartedAt : Time
  LastUpdate : Time
  Duration : String
  ChangedPaths : List String
  deriving DecidableEq, Repr

/-- The JSON document produced by `json.MarshalIndent(activeSession, ...)`,
one field per struct tag. -/
structure Document where
  folder : String
  started_at : Time
  last_update : Time
  duration : String
  changed_paths : List String
  deriving DecidableEq, Repr

/-- Field-by-field serialisation of a session. Serialisation is taken to
succeed: the source discards the error of `json.MarshalIndent`. -/
def marshal (s : Session) : Document :=
  { folder := s.Folder
    started_at := s.StartedAt
    last_update := s.LastUpdate
    duration := s.Duration
    changed_paths := s.ChangedPaths }

/-- The struct `fsnotify.Event`: a path and an operation bitmask. -/
structure Event where
  Name : String
  Op : Nat
  deriving DecidableEq, Repr

namespace fsnotify

/-- Bit `fsnotify.Create`. -/
def Create : Nat := 1
/-- Bit `fsnotify.Write`. -/
def Write : Nat := 2
/-- Bit `fsnotify.Remove`. -/
def Remove : Nat := 4
/-- Bit `fsnotify.Rename`. -/
def Rename : Nat := 8
/-- Bit `fsnotify.Chmod`. -/
def Chmod : Nat := 16

end fsnotify

/-- One console line per print statement of the source. -/
inductive Line where
  /-- Line 55, the banner. -/
  | banner
  /-- Line 58, the prompt for the folder. -/
  | prompt
  /-- Line 81, printed when the termination signal arrived. -/
  | stopped
  /-- Line 112, the notice naming a changed file. -/
  | fileChanged (name : String)
  /-- Line 116, a message of the watcher's error stream. -/
  | watcherError (err : String)
  /-- Line 135, `os.MkdirAll` failed. -/
  | mkdirFailed (err : String)
  /-- Line 145, `os.WriteFile` failed. -/
  | writeFailed (err : String)
  /-- Line 147, the final log was saved under `filename`. -/
  | finalSaved (filename : String)
  /-- Line 148, the session duration. -/
  | duration (d : String)
  /-- Line 149, the number of changed files. -/
  | total (n : Nat)
  /-- Line 151, one changed path. -/
  | path (p : String)
  deriving DecidableEq, Repr

/-- The lines that make up the summary of the final pass (lines 147-152). -/
def Line.isSummary : Line → Bool
  | .finalSaved _ => true
  | .duration _ => true
  | .total _ => true
  | .path _ => true
  | _ => false

/-- The process as seen from outside: the shared variable `activeSession`,
what was printed, the successful `os.WriteFile` calls in order (file name and
content), and whether `main` has returned. -/
structure World where
  activeSession : Session
  console : List Line
  writes : List (String × Document)
  exited : Bool
  deriving DecidableEq, Repr

/-- The keys of the map `allowedExtensions` (lines 34-52); every key maps to
`true`. -/
def allowedExtensionKeys : List String :=
  [".go", ".js", ".ts", ".jsx", ".tsx", ".py", ".php", ".java", ".rb", ".cpp",
   ".c", ".cs", ".html", ".css", ".rs", ".dart", ".kt"]

/-- The lookup `allowedExtensions[ext]`: `false` for an absent key. -/
def allowedExtensions (ext : String) : Bool :=
  allowedExtensionKeys.contains ext

/-- The backwards scan of `filepath.Ext` over the reversed path: `acc` holds
the characters already passed, in path order. -/
def extScan (isSep : Char → Bool) : List Char → List Char → List Char
  | [], _ => []
  | c :: rest, acc =>
    if isSep c then []
    else if c = '.' then '.' :: acc
    else extScan isSep rest (c :: acc)

/-- The function `filepath.Ext`: the suffix starting at the last dot of the
last path element, empty when that element has no dot. -/
def Ext (L : Lib) (path : String) : String :=
  String.mk (extScan L.isPathSeparator path.data.reverse [])

/-- The function `strings.ToLower`: ASCII-only strings have `A`-`Z` shifted to
`a`-`z`, other strings are mapped rune by rune through `unicode.ToLower`. -/
def ToLower (L : Lib) (s : String) : String :=
  if s.data.all (fun c => decide (c.toNat < 128)) then
    String.mk (s.data.map fun c =>
      if 'A'.toNat ≤ c.toNat ∧ c.toNat ≤ 'Z'.toNat then Char.ofNat (c.toNat + 32) else c)
  else
    String.mk (s.data.map L.unicodeToLower)

/-- The function `containsPath` (lines 156-163). -/
def containsPath : List String → String → Bool
  | [], _ => false
  | p :: paths, target => if p = target then true else containsPath paths target

/-- The composite literal assigned to `activeSession` in `main` (lines 66-71).
The literal calls `time.Now()` twice: `t1` is the reading of the first call
(field `StartedAt`), `t2` the reading of the second (field `LastUpdate`).
`Duration` is not mentioned and keeps the zero value. -/
def newSession (folder : String) (t1 t2 : Time) : Session :=
  { Folder := folder
    StartedAt := t1
    LastUpdate := t2
    Duration := ""
    ChangedPaths := [] }

/-- The state of the process once `main` has built the session (lines 55-71,
folder found). -/
def startWorld (folder : String) (t1 t2 : Time) : World :=
  { activeSession := newSession folder t1 t2
    console := [Line.banner, Line.prompt]
    writes := []
    exited := false }

/-- The body of `case event := <-watcher.Events` in `monitorFolder`
(lines 102-114); `now` is the reading of the `time.Now()` call of line 107. -/
def handleEvent (L : Lib) (now : Time) (w : World) (event : Event) : World :=
  if event.Op &&& (fsnotify.Write ||| fsnotify.Create ||| fsnotify.Remove ||| fsnotify.Rename)
      ≠ 0 then
    let ext := ToLower L (Ext L event.Name)
    if allowedExtensions ext then
      let s1 : Session := { w.activeSession with LastUpdate := now }
      let s2 : Session :=
        if !containsPath s1.ChangedPaths event.Name then
          { s1 with ChangedPaths := s1.ChangedPaths ++ [event.Name] }
        else s1
      { w with activeSession := s2, console := w.console ++ [Line.fileChanged event.Name] }
    else w
  else w

/-- The watcher's loop over a sequence of deliveries on `watcher.Events`, each
paired with the clock reading available to it. -/
def monitorFold (L : Lib) (w : World) (events : List (Event × Time)) : World :=
  events.foldl (fun acc d => handleEvent L d.2 acc d.1) w

/-- The saturating subtraction `time.Since(t)` for the clock reading `now`. -/
def since (now t : Time) : Int :=
  if now - t > 2 ^ 63 - 1 then 2 ^ 63 - 1
  else if now - t < -(2 ^ 63) then -(2 ^ 63)
  else now - t

/-- The file name computed on lines 139-140. -/
def logFileName (L : Lib) (startedAt : Time) : String :=
  L.joinPath "logs" (L.formatStamp startedAt ++ ".json")

/-- The function `saveSession` (lines 130-154). `now` is the clock reading
inside `time.Since`; `mkdirErr` and `writeErr` are the results of
`os.MkdirAll` and `os.WriteFile`. -/
def saveSession (L : Lib) (final : Bool) (now : Time) (mkdirErr writeErr : Option String)
    (w : World) : World :=
  let s : Session :=
    { w.activeSession with Duration := L.durationString (since now w.activeSession.StartedAt) }
  let w1 : World := { w with activeSession := s }
  match mkdirErr with
  | some err => { w1 with console := w1.console ++ [Line.mkdirFailed err] }
  | none =>
    let filename := logFileName L s.StartedAt
    let data := marshal s
    match writeErr with
    | some err => { w1 with console := w1.console ++ [Line.writeFailed err] }
    | none =>
      let w2 : World := { w1 with writes := w1.writes ++ [(filename, data)] }
      if final then
        { w2 with
          console := w2.console ++
            ([Line.finalSaved filename, Line.duration s.Duration,
              Line.total s.ChangedPaths.length] ++ s.ChangedPaths.map Line.path) }
      else w2

/-- What the scheduler lets happen next, with the environment's answers. -/
inductive Step where
  /-- The watcher receives `e`; `now` is the clock reading if line 107 runs. -/
  | event (e : Event) (now : Time)
  /-- The watcher receives `err` on `watcher.Errors`. -/
  | watchError (err : String)
  /-- One iteration of `autoSaveLog` after its sleep. -/
  | autoSave (now : Time) (mkdirErr writeErr : Option String)
  /-- The signal arrives: lines 81-82, after which `main` returns. -/
  | shutdown (now : Time) (mkdirErr writeErr : Option String)
  deriving DecidableEq, Repr

/-- One serialized step of the process; nothing runs after `main` returned.
Each task's pass is one step here, the final pass included;
`saveSessionTrace` below follows a pass statement by statement with the other
tasks running in between. -/
def step (L : Lib) (w : World) : Step → World
  | .event e now => if w.exited then w else handleEvent L now w e
  | .watchError err =>
    if w.exited then w else { w with console := w.console ++ [Line.watcherError err] }
  | .autoSave now mkdirErr writeErr =>
    if w.exited then w else saveSession L false now mkdirErr writeErr w
  | .shutdown now mkdirErr writeErr =>
    if w.exited then w
    else
      { saveSession L true now mkdirErr writeErr
          { w with console := w.console ++ [Line.stopped] } with exited := true }

/-- A serialized run: the steps applied in order. -/
def run (L : Lib) (w : World) (steps : List Step) : World :=
  steps.foldl (step L) w

/-- Whether the watcher's filter (lines 103-105) lets the event through. -/
def accepted (L : Lib) (e : Event) : Bool :=
  decide (e.Op &&& (fsnotify.Write ||| fsnotify.Create ||| fsnotify.Remove ||| fsnotify.Rename)
    ≠ 0) && allowedExtensions (ToLower L (Ext L e.Name))

/-- The clock readings a step takes, in order. -/
def Step.readings (L : Lib) (w : World) : Step → List Time
  | .event e now => if !w.exited && accepted L e then [now] else []
  | .watchError _ => []
  | .autoSave now _ _ => if w.exited then [] else [now]
  | .shutdown now _ _ => if w.exited then [] else [now]

/-- Two decimal digits, as the layout elements `15`, `04`, `05` print them. -/
def pad2 (n : Nat) : String :=
  (if n < 10 then "0" else "") ++ toString n

/-- A runtime for evaluating the definitions on examples, equal to the Go
library where the examples use it: `/` is the only separator (POSIX);
`unicode.ToLower` is consulted for strings outside ASCII only and left as
the identity; a duration below one microsecond prints as its nanosecond
count; an instant counts nanoseconds from the Unix epoch and is formatted in
UTC within 1 January 1970; joining two clean components without separators
puts `/` between them. -/
def posixAscii : Lib :=
  { isPathSeparator := fun c => c == '/'
    unicodeToLower := fun c => c
    durationString := fun d => if d = 0 then "0s" else toString d ++ "ns"
    formatStamp := fun t =>
      "1970-01-01_" ++ pad2 (t.toNat / 1000000000 / 3600 % 24) ++ "-" ++
        pad2 (t.toNat / 1000000000 / 60 % 60) ++ "-" ++ pad2 (t.toNat / 1000000000 % 60)
    joinPath := fun a b => a ++ "/" ++ b }

/-- The event signals at least one of write, create, remove, rename. -/
def signalsChange (op : Nat) : Prop :=
  op &&& fsnotify.Write ≠ 0 ∨ op &&& fsnotify.Create ≠ 0 ∨
    op &&& fsnotify.Remove ≠ 0 ∨ op &&& fsnotify.Rename ≠ 0

instance (op : Nat) : Decidable (signalsChange op) := by
  unfold signalsChange; infer_instance

/-- The distinct elements of a list in order of first occurrence: the head
stays and its later copies are removed from what follows. -/
def firstSeen : List String → List String
  | [] => []
  | p :: ps => p :: (firstSeen ps).filter (fun q => decide (q ≠ p))

/-- The extensions the specification names for the allow-list. -/
def namedExtensions : List String :=
  [".go", ".js", ".ts", ".py", ".java", ".rb", ".cpp", ".c", ".cs", ".rs", ".html", ".css",
   ".dart", ".kt"]

/-- The clock readings taken along a serialized run, in order. -/
def readings (L : Lib) : World → List Step → List Time
  | _, [] => []
  | w, s :: rest => s.readings L w ++ readings L (step L w s) rest

/-- The `os.WriteFile` calls that succeeded between two states. -/
def newWrites (before after : World) : List (String × Document) :=
  after.writes.drop before.writes.length

/-- The console lines printed between two states. -/
def newLines (before after : World) : List Line :=
  after.console.drop before.console.length

/-! ### Lock usage

The statements of each task, reduced to what matters for the lock: taking and
releasing `sessionLock`, touching `activeSession`, blocking, and anything
else. -/

/-- One statement of a task, as the lock sees it. -/
inductive Act where
  /-- The call `sessionLock.Lock()`. -/
  | lock
  /-- The call `sessionLock.Unlock()`. -/
  | unlock
  /-- A statement that reads or writes `activeSession`. -/
  | access
  /-- A blocking wait: channel receive, `select`, `time.Sleep`. -/
  | wait
  /-- Any other statement (console output, file system call). -/
  | other
  deriving DecidableEq, Repr

/-- The statements `saveSession` executes (lines 131-153), for the given
results of `os.MkdirAll` and `os.WriteFile` and `n` changed paths. -/
def saveSessionActs (final : Bool) (mkdirErr writeErr : Option String) (n : Nat) : List Act :=
  -- 131: reads StartedAt, writes Duration; 133: MkdirAll
  [Act.access, Act.other] ++
  match mkdirErr with
  | some _ => [Act.other]  -- 135
  | none =>
    -- 139: reads StartedAt; 142: marshals the session; 143: WriteFile
    [Act.access, Act.access, Act.other] ++
    match writeErr with
    | some _ => [Act.other]  -- 145
    | none =>
      if final then
        -- 147; 148 reads Duration; 149 and 150 read ChangedPaths; 151 once per path
        [Act.other, Act.access, Act.access, Act.access] ++ List.replicate n Act.other
      else []

/-- One iteration of the loop of `autoSaveLog` (lines 123-126). -/
def autoSaveLogActs (mkdirErr writeErr : Option String) (n : Nat) : List Act :=
  [Act.wait, Act.lock] ++ saveSessionActs false mkdirErr writeErr n ++ [Act.unlock]

/-- One iteration of the loop of `monitorFolder` that receives an event
(lines 101-114): `pass` says whether the filter lets the event through and
`known` whether its path is already in `ChangedPaths`. -/
def monitorEventActs (pass known : Bool) : List Act :=
  [Act.wait] ++
  if pass then
    -- 106; 107 writes LastUpdate; 108 reads ChangedPaths; 109 appends; 111; 112
    [Act.lock, Act.access, Act.access] ++ (if known then [] else [Act.access]) ++
      [Act.unlock, Act.other]
  else []

/-- One iteration of the loop of `monitorFolder` that receives a watcher
error (lines 115-116). -/
def monitorErrorActs : List Act :=
  [Act.wait, Act.other]

/-- The end of `main` (lines 79-82): wait for the signal, print, call
`saveSession(true)`. -/
def shutdownActs (mkdirErr writeErr : Option String) (n : Nat) : List Act :=
  [Act.wait, Act.other] ++ saveSessionActs true mkdirErr writeErr n

/-- The lock discipline over a sequence of statements, `held` telling whether
the task holds `sessionLock`: the session is touched only with the lock held,
the task never blocks with the lock held, the lock is taken only when free and
released only when held, and it is free at the end. -/
def disciplined : Bool → List Act → Bool
  | held, [] => !held
  | held, Act.lock :: rest => !held && disciplined true rest
  | held, Act.unlock :: rest => held && disciplined false rest
  | held, Act.access :: rest => held && disciplined held rest
  | held, Act.wait :: rest => !held && disciplined held rest
  | held, Act.other :: rest => disciplined held rest

/-! ### A pass statement by statement

`saveSession` touches `activeSession` on several lines (131, 139, 142, 148,
149, 150). The call of line 82 is made without `sessionLock`, so statements
of the other tasks can run between those lines. -/

/-- One statement another task executes while a pass is running. -/
inductive Other where
  /-- The watcher's line 107. -/
  | setLastUpdate (t : Time)
  /-- The watcher's lines 108-110: append the path unless it is present. -/
  | appendPath (p : String)
  /-- Line 131 of a pass run by another task. -/
  | setDuration (d : String)
  /-- A console line printed by another task. -/
  | print (l : Line)
  /-- A successful `os.WriteFile` of another task. -/
  | writeFile (name : String) (doc : Document)
  deriving DecidableEq, Repr

/-- Whether the statement writes a field of `activeSession`. -/
def Other.touchesSession : Other → Bool
  | .setLastUpdate _ => true
  | .appendPath _ => true
  | .setDuration _ => true
  | .print _ => false
  | .writeFile _ _ => false

/-- The effect of one statement of another task. -/
def Other.apply (w : World) : Other → World
  | .setLastUpdate t => { w with activeSession := { w.activeSession with LastUpdate := t } }
  | .appendPath p =>
    { w with
      activeSession :=
        if !containsPath w.activeSession.ChangedPaths p then
          { w.activeSession with ChangedPaths := w.activeSession.ChangedPaths ++ [p] }
        else w.activeSession }
  | .setDuration d => { w with activeSession := { w.activeSession with Duration := d } }
  | .print l => { w with console := w.console ++ [l] }
  | .writeFile name doc => { w with writes := w.writes ++ [(name, doc)] }

/-- The statements of other tasks that run in one gap, in order. -/
def interfere (w : World) (others : List Other) : World :=
  others.foldl Other.apply w

/-- Print one line to the console. -/
def say (w : World) (l : Line) : World :=
  { w with console := w.console ++ [l] }

/-- The loop of lines 150-152 over the slice read on line 150: `loopGap i` is
what other tasks do after the print of element `i`. -/
def printPaths (loopGap : Nat → List Other) : Nat → List String → World → World
  | _, [], w => w
  | i, p :: ps, w => printPaths loopGap (i + 1) ps (interfere (say w (Line.path p)) (loopGap i))

/-- What one call of `saveSession` did: the state it leaves, the file it wrote
(name and content of a successful `os.WriteFile`), and the lines it printed
itself. -/
structure PassTrace where
  world : World
  written : Option (String × Document)
  printed : List Line
  deriving DecidableEq, Repr

/-- The function `saveSession` (lines 130-154) statement by statement:
`gap n` is what other tasks do after line `n` of this call and before its
next statement. -/
def saveSessionTrace (L : Lib) (final : Bool) (now : Time) (mkdirErr writeErr : Option String)
    (gap loopGap : Nat → List Other) (w : World) : PassTrace :=
  -- 131
  let w1 := interfere
    { w with
      activeSession :=
        { w.activeSession with
          Duration := L.durationString (since now w.activeSession.StartedAt) } }
    (gap 131)
  -- 133
  match mkdirErr with
  | some err =>
    { world := say w1 (Line.mkdirFailed err), written := none, printed := [Line.mkdirFailed err] }
  | none =>
    let w2 := interfere w1 (gap 133)
    -- 139, 140
    let filename := logFileName L w2.activeSession.StartedAt
    let w3 := interfere w2 (gap 140)
    -- 142
    let data := marshal w3.activeSession
    let w4 := interfere w3 (gap 142)
    -- 143
    match writeErr with
    | some err =>
      { world := say w4 (Line.writeFailed err), written := none,
        printed := [Line.writeFailed err] }
    | none =>
      let w5 := interfere { w4 with writes := w4.writes ++ [(filename, data)] } (gap 143)
      if final then
        -- 147
        let w6 := interfere (say w5 (Line.finalSaved filename)) (gap 147)
        -- 148
        let d := w6.activeSession.Duration
        let w7 := interfere (say w6 (Line.duration d)) (gap 148)
        -- 149
        let n := w7.activeSession.ChangedPaths.length
        let w8 := interfere (say w7 (Line.total n)) (gap 149)
        -- 150
        let paths := w8.activeSession.ChangedPaths
        let w9 := interfere w8 (gap 150)
        -- 151
        { world := printPaths loopGap 0 paths w9
          written := some (filename, data)
          printed :=
            [Line.finalSaved filename, Line.duration d, Line.total n] ++ paths.map Line.path }
      else { world := w5, written := some (filename, data), printed := [] }

/-- No other task writes the session during the pass. -/
def undisturbed (gap loopGap : Nat → List Other) : Prop :=
  (∀ n, ∀ o ∈ gap n, o.touchesSession = false) ∧
    ∀ i, ∀ o ∈ loopGap i, o.touchesSession = false

/-- No other task runs during the pass. -/
def noOthers : Nat → List Other :=
  fun _ => []

/-- A gap in which the watcher reports an error after line 142 and nothing
else happens. -/
def quietGap : Nat → List Other :=
  fun n => if n = 142 then [Other.print (Line.watcherError "queue overflow")] else []

/-- A gap in which the watcher records `b.go` (lines 107-112) after line 142
of the pass. -/
def racingGap : Nat → List Other :=
  fun n =>
    if n = 142 then
      [Other.setLastUpdate 45, Other.appendPath "b.go", Other.print (Line.fileChanged "b.go")]
    else []

/-! ## Lemmas -/

theorem containsPath_iff (paths : List String) (target : String) :
    containsPath paths target = true ↔ target ∈ paths := by
  induction paths with
  | nil => simp [containsPath]
  | cons p ps ih =>
    by_cases h : p = target
    · simp [containsPath, h]
    · have h2 : ¬ target = p := fun e => h e.symm
      simp [containsPath, h, h2, ih]

theorem lor_eq_zero (a b : Nat) : a ||| b = 0 ↔ a = 0 ∧ b = 0 := by
  constructor
  · intro h
    have key : ∀ i, a.testBit i = false ∧ b.testBit i = false := by
      intro i
      have hi : (a ||| b).testBit i = false := by rw [h]; exact Nat.zero_testBit i
      rw [Nat.testBit_or] at hi
      simpa using hi
    constructor
    · apply Nat.eq_of_testBit_eq; intro i; rw [(key i).1, Nat.zero_testBit]
    · apply Nat.eq_of_testBit_eq; intro i; rw [(key i).2, Nat.zero_testBit]
  · rintro ⟨rfl, rfl⟩; rfl

theorem mask_test_iff (op : Nat) :
    op &&& (fsnotify.Write ||| fsnotify.Create ||| fsnotify.Remove ||| fsnotify.Rename) ≠ 0 ↔
      signalsChange op := by
  unfold signalsChange
  rw [Nat.and_or_distrib_left, Nat.and_or_distrib_left, Nat.and_or_distrib_left]
  rw [Ne, lor_eq_zero, lor_eq_zero, lor_eq_zero]
  tauto

theorem allowedExtensions_iff (ext : String) :
    allowedExtensions ext = true ↔ ext ∈ allowedExtensionKeys := by
  simp [allowedExtensions]

theorem accepted_iff (L : Lib) (e : Event) :
    accepted L e = true ↔
      signalsChange e.Op ∧ ToLower L (Ext L e.Name) ∈ allowedExtensionKeys := by
  unfold accepted
  rw [Bool.and_eq_true, decide_eq_true_iff, mask_test_iff, allowedExtensions_iff]

theorem handleEvent_of_rejected (L : Lib) (now : Time) (w : World) (e : Event)
    (h : accepted L e = false) : handleEvent L now w e = w := by
  unfold accepted at h
  unfold handleEvent
  by_cases hop : e.Op &&&
      (fsnotify.Write ||| fsnotify.Create ||| fsnotify.Remove ||| fsnotify.Rename) ≠ 0
  · have h2 : allowedExtensions (ToLower L (Ext L e.Name)) = false := by
      rcases (Bool.and_eq_false_iff.mp h) with h1 | h1
      · exact absurd hop (of_decide_eq_false h1)
      · exact h1
    rw [if_pos hop]
    simp [h2]
  · rw [if_neg hop]

theorem handleEvent_of_accepted (L : Lib) (now : Time) (w : World) (e : Event)
    (h : accepted L e = true) :
    handleEvent L now w e =
      { w with
        activeSession :=
          { w.activeSession with
            LastUpdate := now
            ChangedPaths :=
              if e.Name ∈ w.activeSession.ChangedPaths then w.activeSession.ChangedPaths
              else w.activeSession.ChangedPaths ++ [e.Name] }
        console := w.console ++ [Line.fileChanged e.Name] } := by
  unfold accepted at h
  rw [Bool.and_eq_true, decide_eq_true_iff] at h
  unfold handleEvent
  by_cases hm : e.Name ∈ w.activeSession.ChangedPaths
  · have hc := (containsPath_iff _ _).mpr hm
    simp [h.1, h.2, hm, hc]
  · have hc : containsPath w.activeSession.ChangedPaths e.Name = false := by
      rw [← Bool.not_eq_true, containsPath_iff]; exact hm
    simp [h.1, h.2, hm, hc]

theorem mem_firstSeen (l : List String) (p : String) : p ∈ firstSeen l ↔ p ∈ l := by
  induction l with
  | nil => simp [firstSeen]
  | cons a l ih =>
    by_cases h : p = a
    · simp [firstSeen, h]
    · simp [firstSeen, h, ih]

theorem firstSeen_nodup (l : List String) : (firstSeen l).Nodup := by
  induction l with
  | nil => simp [firstSeen]
  | cons a l ih =>
    simp only [firstSeen, List.nodup_cons]
    exact ⟨by simp, ih.filter _⟩

theorem firstSeen_of_nodup (l : List String) (h : l.Nodup) : firstSeen l = l := by
  induction l with
  | nil => rfl
  | cons a l ih =>
    rw [List.nodup_cons] at h
    simp only [firstSeen, ih h.2]
    congr 1
    rw [List.filter_eq_self]
    intro q hq
    simp only [decide_eq_true_eq]
    rintro rfl
    exact h.1 hq

theorem monitorFold_cons (L : Lib) (w : World) (d : Event × Time) (ds : List (Event × Time)) :
    monitorFold L w (d :: ds) = monitorFold L (handleEvent L d.2 w d.1) ds := rfl

theorem monitorFold_changedPaths (L : Lib) (evs : List (Event × Time)) :
    ∀ w : World, (∀ d ∈ evs, accepted L d.1 = true) →
      (monitorFold L w evs).activeSession.ChangedPaths =
        w.activeSession.ChangedPaths ++
          (firstSeen (evs.map fun d => d.1.Name)).filter
            (fun p => decide (p ∉ w.activeSession.ChangedPaths)) := by
  induction evs with
  | nil => intro w _; simp [monitorFold, firstSeen]
  | cons d ds ih =>
    intro w hacc
    have hd : accepted L d.1 = true := hacc d (List.mem_cons_self _ _)
    have hds : ∀ x ∈ ds, accepted L x.1 = true := fun x hx => hacc x (List.mem_cons_of_mem _ hx)
    rw [monitorFold_cons, ih _ hds, handleEvent_of_accepted L d.2 w d.1 hd]
    simp only [List.map_cons, firstSeen]
    by_cases hm : d.1.Name ∈ w.activeSession.ChangedPaths
    · simp only [hm, if_true, List.filter_cons, not_true_eq_false, decide_False,
        Bool.false_eq_true, if_false, List.filter_filter]
      congr 1
      apply List.filter_congr
      intro q _
      by_cases hq : q ∈ w.activeSession.ChangedPaths
      · simp [hq]
      · have : q ≠ d.1.Name := by rintro rfl; exact hq hm
        simp [hq, this]
    · simp only [hm, if_false, List.filter_cons, not_false_eq_true, decide_True, if_true,
        List.filter_filter, List.append_assoc, List.singleton_append]
      congr 2
      apply List.filter_congr
      intro q _
      by_cases hq : q ∈ w.activeSession.ChangedPaths
      · simp [hq]
      · by_cases hq2 : q = d.1.Name
        · simp [hq, hq2]
        · simp [hq, hq2]

theorem monitorFold_fresh (L : Lib) (folder : String) (t1 t2 : Time) (evs : List (Event × Time))
    (hacc : ∀ d ∈ evs, accepted L d.1 = true) :
    (monitorFold L (startWorld folder t1 t2) evs).activeSession.ChangedPaths =
      firstSeen (evs.map fun d => d.1.Name) := by
  rw [monitorFold_changedPaths L evs _ hacc]
  simp [startWorld, newSession]

theorem saveSession_session (L : Lib) (final : Bool) (now : Time)
    (mkdirErr writeErr : Option String) (w : World) :
    (saveSession L final now mkdirErr writeErr w).activeSession =
      { w.activeSession with
        Duration := L.durationString (since now w.activeSession.StartedAt) } := by
  unfold saveSession
  cases mkdirErr <;> cases writeErr <;> cases final <;> rfl

theorem saveSession_exited (L : Lib) (final : Bool) (now : Time)
    (mkdirErr writeErr : Option String) (w : World) :
    (saveSession L final now mkdirErr writeErr w).exited = w.exited := by
  unfold saveSession
  cases mkdirErr <;> cases writeErr <;> cases final <;> rfl

theorem saveSession_writes_ok (L : Lib) (final : Bool) (now : Time) (w : World) :
    (saveSession L final now none none w).writes =
      w.writes ++ [(logFileName L w.activeSession.StartedAt,
        marshal (saveSession L final now none none w).activeSession)] := by
  unfold saveSession
  cases final <;> rfl

theorem saveSession_writes_mkdir (L : Lib) (final : Bool) (now : Time) (err : String)
    (writeErr : Option String) (w : World) :
    (saveSession L final now (some err) writeErr w).writes = w.writes := by
  unfold saveSession
  rfl

theorem saveSession_writes_write (L : Lib) (final : Bool) (now : Time) (err : String)
    (w : World) :
    (saveSession L final now none (some err) w).writes = w.writes := by
  unfold saveSession
  rfl

theorem newWrites_append (w w' : World) (l : List (String × Document))
    (h : w'.writes = w.writes ++ l) : newWrites w w' = l := by
  simp [newWrites, h]

theorem newLines_append (w w' : World) (l : List Line)
    (h : w'.console = w.console ++ l) : newLines w w' = l := by
  simp [newLines, h]

theorem saveSession_newWrites (L : Lib) (final : Bool) (now : Time)
    (mkdirErr writeErr : Option String) (w : World) :
    newWrites w (saveSession L final now mkdirErr writeErr w) =
      if mkdirErr = none ∧ writeErr = none then
        [(logFileName L w.activeSession.StartedAt,
          marshal (saveSession L final now mkdirErr writeErr w).activeSession)]
      else [] := by
  cases mkdirErr with
  | some e =>
    simp only [reduceCtorEq, false_and, if_false]
    exact newWrites_append _ _ _ (by rw [saveSession_writes_mkdir]; simp)
  | none =>
    cases writeErr with
    | some e =>
      simp only [reduceCtorEq, and_false, if_false]
      exact newWrites_append _ _ _ (by rw [saveSession_writes_write]; simp)
    | none =>
      simp only [and_self, if_true]
      exact newWrites_append _ _ _ (saveSession_writes_ok L final now w)

theorem handleEvent_frame (L : Lib) (now : Time) (w : World) (e : Event) :
    (handleEvent L now w e).activeSession.StartedAt = w.activeSession.StartedAt ∧
      (handleEvent L now w e).activeSession.Folder = w.activeSession.Folder ∧
      (handleEvent L now w e).writes = w.writes := by
  cases hacc : accepted L e
  · rw [handleEvent_of_rejected L now w e hacc]; exact ⟨rfl, rfl, rfl⟩
  · rw [handleEvent_of_accepted L now w e hacc]; exact ⟨rfl, rfl, rfl⟩

theorem step_frame (L : Lib) (w : World) (s : Step) :
    (step L w s).activeSession.StartedAt = w.activeSession.StartedAt ∧
      (step L w s).activeSession.Folder = w.activeSession.Folder := by
  cases s with
  | event e now =>
    unfold step
    by_cases hx : w.exited = true
    · simp [hx]
    · simp only [hx, Bool.false_eq_true, if_false]
      exact ⟨(handleEvent_frame L now w e).1, (handleEvent_frame L now w e).2.1⟩
  | watchError err =>
    unfold step
    by_cases hx : w.exited = true
    · simp [hx]
    · simp [hx]
  | autoSave now me we =>
    unfold step
    by_cases hx : w.exited = true
    · simp [hx]
    · simp [hx, saveSession_session]
  | shutdown now me we =>
    unfold step
    by_cases hx : w.exited = true
    · simp [hx]
    · simp [hx, saveSession_session]

theorem step_lastUpdate (L : Lib) (w : World) (s : Step) :
    (step L w s).activeSession.LastUpdate = w.activeSession.LastUpdate ∨
      (step L w s).activeSession.LastUpdate ∈ s.readings L w := by
  cases s with
  | event e now =>
    unfold step
    by_cases hx : w.exited = true
    · simp [hx]
    · cases hacc : accepted L e
      · left
        simp only [hx, Bool.false_eq_true, if_false]
        rw [handleEvent_of_rejected L now w e hacc]
      · right
        simp only [hx, Bool.false_eq_true, if_false]
        rw [handleEvent_of_accepted L now w e hacc]
        simp [Step.readings, hx, hacc]
  | watchError err =>
    left
    unfold step
    by_cases hx : w.exited = true
    · simp [hx]
    · simp [hx]
  | autoSave now me we =>
    left
    unfold step
    by_cases hx : w.exited = true
    · simp [hx]
    · simp only [hx, Bool.false_eq_true, if_false, saveSession_session]
  | shutdown now me we =>
    left
    unfold step
    by_cases hx : w.exited = true
    · simp [hx]
    · simp only [hx, Bool.false_eq_true, if_false, saveSession_session]

theorem run_cons (L : Lib) (w : World) (s : Step) (rest : List Step) :
    run L w (s :: rest) = run L (step L w s) rest := rfl

theorem run_append (L : Lib) (w : World) (a b : List Step) :
    run L w (a ++ b) = run L (run L w a) b := by
  simp [run, List.foldl_append]

theorem readings_append (L : Lib) (a b : List Step) :
    ∀ w : World, readings L w (a ++ b) = readings L w a ++ readings L (run L w a) b := by
  induction a with
  | nil => intro w; simp [readings, run]
  | cons s rest ih =>
    intro w
    show s.readings L w ++ readings L (step L w s) (rest ++ b) = _
    rw [ih, run_cons]
    simp [readings]

theorem run_frame (L : Lib) (steps : List Step) :
    ∀ w : World,
      (run L w steps).activeSession.StartedAt = w.activeSession.StartedAt ∧
        (run L w steps).activeSession.Folder = w.activeSession.Folder := by
  induction steps with
  | nil => intro w; exact ⟨rfl, rfl⟩
  | cons s rest ih =>
    intro w
    rw [run_cons]
    exact ⟨(ih _).1.trans (step_frame L w s).1, (ih _).2.trans (step_frame L w s).2⟩

theorem run_lastUpdate (L : Lib) (steps : List Step) :
    ∀ w : World,
      (run L w steps).activeSession.LastUpdate = w.activeSession.LastUpdate ∨
        (run L w steps).activeSession.LastUpdate ∈ readings L w steps := by
  induction steps with
  | nil => intro w; left; rfl
  | cons s rest ih =>
    intro w
    rw [run_cons]
    simp only [readings, List.mem_append]
    rcases ih (step L w s) with h | h
    · rcases step_lastUpdate L w s with h2 | h2
      · left; rw [h, h2]
      · right; left; rw [h]; exact h2
    · right; right; exact h

theorem saveSession_console (L : Lib) (final : Bool) (now : Time)
    (mkdirErr writeErr : Option String) (w : World) :
    (saveSession L final now mkdirErr writeErr w).console =
      w.console ++
        match mkdirErr, writeErr with
        | some err, _ => [Line.mkdirFailed err]
        | none, some err => [Line.writeFailed err]
        | none, none =>
          if final then
            [Line.finalSaved (logFileName L w.activeSession.StartedAt),
              Line.duration (L.durationString (since now w.activeSession.StartedAt)),
              Line.total w.activeSession.ChangedPaths.length] ++
              w.activeSession.ChangedPaths.map Line.path
          else [] := by
  unfold saveSession
  cases mkdirErr <;> cases writeErr <;> cases final <;> simp

theorem saveSession_writes_cases (L : Lib) (final : Bool) (now : Time)
    (mkdirErr writeErr : Option String) (w : World) :
    (saveSession L final now mkdirErr writeErr w).writes = w.writes ∨
      ∃ d, (saveSession L final now mkdirErr writeErr w).writes =
        w.writes ++ [(logFileName L w.activeSession.StartedAt, d)] := by
  cases mkdirErr with
  | some e => left; exact saveSession_writes_mkdir L final now e writeErr w
  | none =>
    cases writeErr with
    | some e => left; exact saveSession_writes_write L final now e w
    | none => right; exact ⟨_, saveSession_writes_ok L final now w⟩

theorem step_writes_cases (L : Lib) (w : World) (s : Step) :
    (step L w s).writes = w.writes ∨
      ∃ d, (step L w s).writes = w.writes ++ [(logFileName L w.activeSession.StartedAt, d)] := by
  cases s with
  | event e now =>
    left
    unfold step
    by_cases hx : w.exited = true
    · simp [hx]
    · simp only [hx, Bool.false_eq_true, if_false]
      exact (handleEvent_frame L now w e).2.2
  | watchError err =>
    left
    unfold step
    by_cases hx : w.exited = true
    · simp [hx]
    · simp [hx]
  | autoSave now me we =>
    unfold step
    by_cases hx : w.exited = true
    · simp [hx]
    · simp only [hx, Bool.false_eq_true, if_false]
      exact saveSession_writes_cases L false now me we w
  | shutdown now me we =>
    by_cases hx : w.exited = true
    · simp [step, hx]
    · simp only [step, if_neg hx]
      exact saveSession_writes_cases L true now me we
        { w with console := w.console ++ [Line.stopped] }

theorem run_writes_names (L : Lib) (steps : List Step) :
    ∀ w : World, (∀ x ∈ w.writes, x.1 = logFileName L w.activeSession.StartedAt) →
      ∀ x ∈ (run L w steps).writes, x.1 = logFileName L w.activeSession.StartedAt := by
  induction steps with
  | nil => intro w h; exact h
  | cons s rest ih =>
    intro w h
    rw [run_cons]
    have hst := (step_frame L w s).1
    rw [← hst]
    apply ih
    rw [hst]
    rcases step_writes_cases L w s with h2 | ⟨d, h2⟩
    · rw [h2]; exact h
    · rw [h2]
      intro x hx
      rcases List.mem_append.mp hx with hx | hx
      · exact h x hx
      · rw [List.mem_singleton] at hx
        rw [hx]

theorem interfere_nil (w : World) : interfere w [] = w := rfl

theorem interfere_cons (w : World) (o : Other) (os : List Other) :
    interfere w (o :: os) = interfere (Other.apply w o) os := rfl

theorem apply_startedAt (w : World) (o : Other) :
    (Other.apply w o).activeSession.StartedAt = w.activeSession.StartedAt := by
  cases o with
  | appendPath p =>
    simp only [Other.apply]
    split <;> rfl
  | _ => rfl

theorem interfere_startedAt (os : List Other) :
    ∀ w : World, (interfere w os).activeSession.StartedAt = w.activeSession.StartedAt := by
  induction os with
  | nil => intro w; rfl
  | cons o os ih => intro w; rw [interfere_cons, ih, apply_startedAt]

theorem apply_quiet (w : World) (o : Other) (h : o.touchesSession = false) :
    (Other.apply w o).activeSession = w.activeSession := by
  cases o with
  | print l => rfl
  | writeFile name doc => rfl
  | _ => simp [Other.touchesSession] at h

theorem interfere_quiet (os : List Other) :
    ∀ w : World, (∀ o ∈ os, o.touchesSession = false) →
      (interfere w os).activeSession = w.activeSession := by
  induction os with
  | nil => intro w _; rfl
  | cons o os ih =>
    intro w h
    rw [interfere_cons, ih _ (fun x hx => h x (List.mem_cons_of_mem _ hx)),
      apply_quiet w o (h o (List.mem_cons_self _ _))]

theorem printPaths_quiet (loopGap : Nat → List Other)
    (h : ∀ i, ∀ o ∈ loopGap i, o.touchesSession = false) (ps : List String) :
    ∀ (i : Nat) (w : World),
      (printPaths loopGap i ps w).activeSession = w.activeSession := by
  induction ps with
  | nil => intro i w; rfl
  | cons p ps ih =>
    intro i w
    simp only [printPaths]
    rw [ih, interfere_quiet _ _ (h i)]
    rfl

theorem printPaths_noOthers (ps : List String) :
    ∀ (i : Nat) (w : World),
      printPaths noOthers i ps w = { w with console := w.console ++ ps.map Line.path } := by
  induction ps with
  | nil => intro i w; simp [printPaths]
  | cons p ps ih =>
    intro i w
    simp only [printPaths, noOthers, interfere_nil]
    have := ih (i + 1) (say w (Line.path p))
    simp only [noOthers] at this
    rw [this]
    simp [say]

theorem handleEvent_as_others (L : Lib) (now : Time) (w : World) (e : Event)
    (h : accepted L e = true) :
    handleEvent L now w e =
      interfere w [Other.setLastUpdate now, Other.appendPath e.Name,
        Other.print (Line.fileChanged e.Name)] := by
  rw [handleEvent_of_accepted L now w e h]
  simp only [interfere, List.foldl, Other.apply]
  by_cases hm : e.Name ∈ w.activeSession.ChangedPaths
  · have hc := (containsPath_iff _ _).mpr hm
    simp [hm, hc]
  · have hc : containsPath w.activeSession.ChangedPaths e.Name = false := by
      rw [← Bool.not_eq_true, containsPath_iff]; exact hm
    simp [hm, hc]

theorem saveSessionTrace_noOthers (L : Lib) (final : Bool) (now : Time)
    (mkdirErr writeErr : Option String) (w : World) :
    (saveSessionTrace L final now mkdirErr writeErr noOthers noOthers w).world =
      saveSession L final now mkdirErr writeErr w := by
  unfold saveSessionTrace saveSession
  cases mkdirErr <;> cases writeErr <;> cases final <;>
    simp [noOthers, interfere_nil, say, printPaths_noOthers]

/-- The unlocked final pass with the watcher in between: the watcher records
`b.go` after the session was serialised on line 142, so the document written
lists `a.go` only while the summary counts two files and the session after
the pass holds both. -/
theorem final_pass_interleaved_with_watcher :
    ((saveSessionTrace posixAscii true 40 none none racingGap noOthers
        (handleEvent posixAscii 20 (startWorld "proj" 10 11)
          ⟨"a.go", fsnotify.Create⟩)).written.map fun x => x.2.changed_paths) =
      some ["a.go"] ∧
    (saveSessionTrace posixAscii true 40 none none racingGap noOthers
        (handleEvent posixAscii 20 (startWorld "proj" 10 11)
          ⟨"a.go", fsnotify.Create⟩)).world.activeSession.ChangedPaths = ["a.go", "b.go"] ∧
    Line.total 2 ∈ (saveSessionTrace posixAscii true 40 none none racingGap noOthers
        (handleEvent posixAscii 20 (startWorld "proj" 10 11)
          ⟨"a.go", fsnotify.Create⟩)).printed := by
  decide

/-! ## Claims -/

/-- C1. From a freshly constructed session, after the watcher's fold over any
sequence of events that each signal write, create, remove or rename on a path
with an allow-listed extension, `ChangedPaths` is the list of distinct event
paths in order of first occurrence: it has no duplicates, holds exactly the
event paths, and holds each of them once however often it was delivered. -/
theorem changedPaths_eq_firstSeen (L : Lib) (folder : String) (t1 t2 : Time)
    (evs : List (Event × Time))
    (hacc : ∀ d ∈ evs,
      signalsChange d.1.Op ∧ ToLower L (Ext L d.1.Name) ∈ allowedExtensionKeys) :
    (monitorFold L (startWorld folder t1 t2) evs).activeSession.ChangedPaths =
        firstSeen (evs.map fun d => d.1.Name) ∧
      (monitorFold L (startWorld folder t1 t2) evs).activeSession.ChangedPaths.Nodup ∧
      (∀ p, p ∈ (monitorFold L (startWorld folder t1 t2) evs).activeSession.ChangedPaths ↔
        ∃ d ∈ evs, d.1.Name = p) ∧
      ∀ d ∈ evs,
        (monitorFold L (startWorld folder t1 t2) evs).activeSession.ChangedPaths.count
          d.1.Name = 1 := by
  have hacc2 : ∀ d ∈ evs, accepted L d.1 = true := fun d hd => (accepted_iff L d.1).mpr (hacc d hd)
  have key := monitorFold_fresh L folder t1 t2 evs hacc2
  rw [key]
  refine ⟨rfl, firstSeen_nodup _, ?_, ?_⟩
  · intro p
    rw [mem_firstSeen, List.mem_map]
  · intro d hd
    apply List.count_eq_one_of_mem (firstSeen_nodup _)
    rw [mem_firstSeen]
    exact List.mem_map_of_mem (fun d : Event × Time => d.1.Name) hd

/-- Scenario C for C1: three write events for `a.py` leave `a.py` in
`ChangedPaths` exactly once. -/
theorem changedPaths_eq_firstSeen_witness :
    (∀ d ∈ [((⟨"a.py", fsnotify.Write⟩ : Event), (21 : Time)),
        (⟨"a.py", fsnotify.Write⟩, 22), (⟨"a.py", fsnotify.Write⟩, 23)],
      signalsChange d.1.Op ∧ ToLower posixAscii (Ext posixAscii d.1.Name) ∈ allowedExtensionKeys) ∧
    (monitorFold posixAscii (startWorld "proj" 10 11)
      [(⟨"a.py", fsnotify.Write⟩, 21), (⟨"a.py", fsnotify.Write⟩, 22),
        (⟨"a.py", fsnotify.Write⟩, 23)]).activeSession.ChangedPaths = ["a.py"] :=
  ⟨by decide,
    (changedPaths_eq_firstSeen posixAscii "proj" 10 11
      [(⟨"a.py", fsnotify.Write⟩, 21), (⟨"a.py", fsnotify.Write⟩, 22),
        (⟨"a.py", fsnotify.Write⟩, 23)] (by decide)).1.trans (by decide)⟩

/-- C2. An event the filter discards, because its lower-cased extension is not
a key of the allow-list or because its bitmask has none of write, create,
remove, rename, leaves the whole state as it was: the session with all five
fields, and the console and the written files as well. -/
theorem discarded_event_changes_nothing (L : Lib) (now : Time) (w : World) (e : Event)
    (h : ToLower L (Ext L e.Name) ∉ allowedExtensionKeys ∨ ¬ signalsChange e.Op) :
    handleEvent L now w e = w ∧
      (handleEvent L now w e).activeSession.ChangedPaths = w.activeSession.ChangedPaths ∧
      (handleEvent L now w e).activeSession.LastUpdate = w.activeSession.LastUpdate ∧
      (handleEvent L now w e).activeSession.Folder = w.activeSession.Folder ∧
      (handleEvent L now w e).activeSession.StartedAt = w.activeSession.StartedAt ∧
      (handleEvent L now w e).activeSession.Duration = w.activeSession.Duration := by
  have hrej : accepted L e = false := by
    rw [← Bool.not_eq_true, accepted_iff]
    rintro ⟨h1, h2⟩
    rcases h with h | h
    · exact h h2
    · exact h h1
  rw [handleEvent_of_rejected L now w e hrej]
  exact ⟨rfl, rfl, rfl, rfl, rfl, rfl⟩

/-- Scenario B for C2: a write to `notes.txt`, a write to `README.md` and a
chmod of `main.go` each leave the state untouched. -/
theorem discarded_event_changes_nothing_witness :
    (ToLower posixAscii (Ext posixAscii "notes.txt") ∉ allowedExtensionKeys ∨
        ¬ signalsChange fsnotify.Write) ∧
      handleEvent posixAscii 30 (startWorld "proj" 10 11) ⟨"notes.txt", fsnotify.Write⟩ =
        startWorld "proj" 10 11 ∧
      handleEvent posixAscii 30 (startWorld "proj" 10 11) ⟨"README.md", fsnotify.Write⟩ =
        startWorld "proj" 10 11 ∧
      handleEvent posixAscii 30 (startWorld "proj" 10 11) ⟨"main.go", fsnotify.Chmod⟩ =
        startWorld "proj" 10 11 :=
  ⟨by decide,
    (discarded_event_changes_nothing posixAscii 30 (startWorld "proj" 10 11)
      ⟨"notes.txt", fsnotify.Write⟩ (by decide)).1,
    (discarded_event_changes_nothing posixAscii 30 (startWorld "proj" 10 11)
      ⟨"README.md", fsnotify.Write⟩ (by decide)).1,
    (discarded_event_changes_nothing posixAscii 30 (startWorld "proj" 10 11)
      ⟨"main.go", fsnotify.Chmod⟩ (by decide)).1⟩

/-- C3. An event that signals write, create, remove or rename and whose
extension, lower-cased, is one of the fourteen extensions the specification
names is accepted: afterwards `LastUpdate` is the clock reading taken for the
event and the path, in its original casing, is in `ChangedPaths`. -/
theorem named_extension_accepted (L : Lib) (now : Time) (w : World) (e : Event)
    (hop : signalsChange e.Op) (hext : ToLower L (Ext L e.Name) ∈ namedExtensions) :
    (handleEvent L now w e).activeSession.LastUpdate = now ∧
      e.Name ∈ (handleEvent L now w e).activeSession.ChangedPaths := by
  have hsub : ∀ x ∈ namedExtensions, x ∈ allowedExtensionKeys := by decide
  have hacc : accepted L e = true := (accepted_iff L e).mpr ⟨hop, hsub _ hext⟩
  rw [handleEvent_of_accepted L now w e hacc]
  refine ⟨rfl, ?_⟩
  by_cases hm : e.Name ∈ w.activeSession.ChangedPaths
  · simp [hm]
  · simp [hm]

/-- Upper-case and mixed-case extensions for C3: a create of `src/Main.GO`
is accepted and recorded under that spelling. -/
theorem named_extension_accepted_witness :
    signalsChange fsnotify.Create ∧
      ToLower posixAscii (Ext posixAscii "src/Main.GO") ∈ namedExtensions ∧
      (handleEvent posixAscii 30 (startWorld "proj" 10 11)
        ⟨"src/Main.GO", fsnotify.Create⟩).activeSession.LastUpdate = 30 ∧
      "src/Main.GO" ∈ (handleEvent posixAscii 30 (startWorld "proj" 10 11)
        ⟨"src/Main.GO", fsnotify.Create⟩).activeSession.ChangedPaths :=
  ⟨by decide, by decide,
    named_extension_accepted posixAscii 30 (startWorld "proj" 10 11)
      ⟨"src/Main.GO", fsnotify.Create⟩ (by decide) (by decide)⟩

/-- C4, as the code has it. Construction reads the clock twice: `StartedAt` is
the first reading and `LastUpdate` the second, so the two stamps are equal
exactly when the two readings are, and `StartedAt ≤ LastUpdate` when the
second reading is not earlier than the first. `Folder` is the given path,
`ChangedPaths` is empty and `Duration` is the empty string. -/
theorem newSession_fields (folder : String) (t1 t2 : Time) :
    (newSession folder t1 t2).Folder = folder ∧
      (newSession folder t1 t2).StartedAt = t1 ∧
      (newSession folder t1 t2).LastUpdate = t2 ∧
      (newSession folder t1 t2).ChangedPaths = [] ∧
      (newSession folder t1 t2).Duration = "" ∧
      ((newSession folder t1 t2).StartedAt = (newSession folder t1 t2).LastUpdate ↔ t1 = t2) ∧
      (t1 ≤ t2 → (newSession folder t1 t2).StartedAt ≤ (newSession folder t1 t2).LastUpdate) :=
  ⟨rfl, rfl, rfl, rfl, rfl, Iff.rfl, fun h => h⟩

/-- C4 at two successive readings of a clock that moved on. -/
theorem newSession_fields_witness :
    (100 : Time) ≤ 101 ∧
      (newSession "proj" 100 101).StartedAt ≤ (newSession "proj" 100 101).LastUpdate :=
  ⟨by decide, (newSession_fields "proj" 100 101).2.2.2.2.2.2 (by decide)⟩

/-- C4 as stated fails: when the clock advances between the two `time.Now()`
calls of the literal, `StartedAt` and `LastUpdate` differ. -/
theorem newSession_stamps_differ :
    (newSession "proj" 100 101).StartedAt ≠ (newSession "proj" 100 101).LastUpdate := by
  decide

/-- C10. For accepted events with pairwise distinct paths, folding any
permutation of them into a fresh session gives a `ChangedPaths` that lists the
paths in the order they were folded: its length is the number of events, it is
a permutation of the paths and holds each exactly once. And one event, from
any state, keeps the previous `ChangedPaths` as a prefix and adds at most one
element. -/
theorem no_lost_update_any_order (L : Lib) (folder : String) (t1 t2 : Time)
    (evs evs' : List (Event × Time)) (hperm : evs'.Perm evs)
    (hacc : ∀ d ∈ evs,
      signalsChange d.1.Op ∧ ToLower L (Ext L d.1.Name) ∈ allowedExtensionKeys)
    (hdistinct : (evs.map fun d => d.1.Name).Nodup) :
    ((monitorFold L (startWorld folder t1 t2) evs').activeSession.ChangedPaths =
        evs'.map (fun d => d.1.Name) ∧
      (monitorFold L (startWorld folder t1 t2) evs').activeSession.ChangedPaths.length =
        evs.length ∧
      (monitorFold L (startWorld folder t1 t2) evs').activeSession.ChangedPaths.Perm
        (evs.map fun d => d.1.Name) ∧
      ∀ d ∈ evs,
        (monitorFold L (startWorld folder t1 t2) evs').activeSession.ChangedPaths.count
          d.1.Name = 1) ∧
    ∀ (w : World) (now : Time) (e : Event),
      ∃ added : List String,
        (handleEvent L now w e).activeSession.ChangedPaths =
          w.activeSession.ChangedPaths ++ added ∧ added.length ≤ 1 := by
  constructor
  · have hacc' : ∀ d ∈ evs', accepted L d.1 = true :=
      fun d hd => (accepted_iff L d.1).mpr (hacc d (hperm.subset hd))
    have hnames : (evs'.map fun d => d.1.Name).Perm (evs.map fun d => d.1.Name) :=
      hperm.map _
    have hnd : (evs'.map fun d => d.1.Name).Nodup := hnames.nodup_iff.mpr hdistinct
    rw [monitorFold_fresh L folder t1 t2 evs' hacc', firstSeen_of_nodup _ hnd]
    refine ⟨rfl, ?_, hnames, ?_⟩
    · rw [List.length_map]; exact hperm.length_eq
    · intro d hd
      apply List.count_eq_one_of_mem hnd
      exact hnames.mem_iff.mpr (List.mem_map_of_mem (fun d : Event × Time => d.1.Name) hd)
  · intro w now e
    cases hacc : accepted L e
    · exact ⟨[], by rw [handleEvent_of_rejected L now w e hacc]; simp, by simp⟩
    · rw [handleEvent_of_accepted L now w e hacc]
      by_cases hm : e.Name ∈ w.activeSession.ChangedPaths
      · exact ⟨[], by simp [hm], by simp⟩
      · exact ⟨[e.Name], by simp [hm], by simp⟩

/-- C10 on three producers delivered in another order than they were listed. -/
theorem no_lost_update_any_order_witness :
    [((⟨"c.rs", fsnotify.Rename⟩ : Event), (21 : Time)), (⟨"a.go", fsnotify.Create⟩, 22),
        (⟨"b.py", fsnotify.Write⟩, 23)].Perm
      [(⟨"a.go", fsnotify.Create⟩, 22), (⟨"b.py", fsnotify.Write⟩, 23),
        (⟨"c.rs", fsnotify.Rename⟩, 21)] ∧
    (monitorFold posixAscii (startWorld "proj" 10 11)
      [(⟨"c.rs", fsnotify.Rename⟩, 21), (⟨"a.go", fsnotify.Create⟩, 22),
        (⟨"b.py", fsnotify.Write⟩, 23)]).activeSession.ChangedPaths =
      ["c.rs", "a.go", "b.py"] :=
  ⟨by decide,
    (no_lost_update_any_order posixAscii "proj" 10 11
      [(⟨"a.go", fsnotify.Create⟩, 22), (⟨"b.py", fsnotify.Write⟩, 23),
        (⟨"c.rs", fsnotify.Rename⟩, 21)]
      [(⟨"c.rs", fsnotify.Rename⟩, 21), (⟨"a.go", fsnotify.Create⟩, 22),
        (⟨"b.py", fsnotify.Write⟩, 23)]
      (by decide) (by decide) (by decide)).1.1⟩

/-- C5. Under a clock whose successive readings never decrease (the two
readings of construction followed by the readings of the run), in every state
reached from construction by a serialized sequence of watcher events, watcher
errors and persistence passes: `StartedAt` is still the first reading,
`Folder` the given path, `StartedAt ≤ LastUpdate`, and the next step does not
decrease `LastUpdate`. -/
theorem lastUpdate_never_decreases (L : Lib) (folder : String) (t1 t2 : Time)
    (steps : List Step)
    (hclock : List.Chain' (fun a b : Time => a ≤ b)
      (t1 :: t2 :: readings L (startWorld folder t1 t2) steps)) :
    (∀ pre suf : List Step, steps = pre ++ suf →
      (run L (startWorld folder t1 t2) pre).activeSession.StartedAt = t1 ∧
      (run L (startWorld folder t1 t2) pre).activeSession.Folder = folder ∧
      (run L (startWorld folder t1 t2) pre).activeSession.StartedAt ≤
        (run L (startWorld folder t1 t2) pre).activeSession.LastUpdate) ∧
    ∀ (pre : List Step) (s : Step) (suf : List Step), steps = pre ++ s :: suf →
      (run L (startWorld folder t1 t2) pre).activeSession.LastUpdate ≤
        (run L (startWorld folder t1 t2) (pre ++ [s])).activeSession.LastUpdate := by
  have hpw : List.Pairwise (fun a b : Time => a ≤ b)
      (t1 :: t2 :: readings L (startWorld folder t1 t2) steps) :=
    List.chain'_iff_pairwise.mp hclock
  rw [List.pairwise_cons, List.pairwise_cons] at hpw
  obtain ⟨h1, h2, hR⟩ := hpw
  have ht12 : t1 ≤ t2 := h1 t2 (List.mem_cons_self _ _)
  constructor
  · intro pre suf hsplit
    have hfr := run_frame L pre (startWorld folder t1 t2)
    refine ⟨hfr.1, hfr.2, ?_⟩
    rw [hfr.1]
    show t1 ≤ _
    rcases run_lastUpdate L pre (startWorld folder t1 t2) with h | h
    · rw [h]; exact ht12
    · apply h1
      apply List.mem_cons_of_mem
      rw [hsplit, readings_append]
      exact List.mem_append_left _ h
  · intro pre s suf hsplit
    rw [run_append]
    show _ ≤ (step L _ s).activeSession.LastUpdate
    rcases step_lastUpdate L (run L (startWorld folder t1 t2) pre) s with h | h
    · rw [h]
    · have hsplitR : readings L (startWorld folder t1 t2) steps =
          readings L (startWorld folder t1 t2) pre ++
            (s.readings L (run L (startWorld folder t1 t2) pre) ++
              readings L (step L (run L (startWorld folder t1 t2) pre) s) suf) := by
        rw [hsplit, readings_append]; rfl
      have hmem : (step L (run L (startWorld folder t1 t2) pre) s).activeSession.LastUpdate ∈
          readings L (startWorld folder t1 t2) steps := by
        rw [hsplitR]
        exact List.mem_append_right _ (List.mem_append_left _ h)
      rcases run_lastUpdate L pre (startWorld folder t1 t2) with h3 | h3
      · rw [h3]
        exact h2 _ hmem
      · rw [hsplitR, List.pairwise_append] at hR
        exact hR.2.2 _ h3 _ (List.mem_append_left _ h)

/-- C5 on a run with an accepted event, a periodic pass, a repeated event and
the shutdown pass, the clock advancing throughout. -/
theorem lastUpdate_never_decreases_witness :
    List.Chain' (fun a b : Time => a ≤ b)
        ((10 : Time) :: 11 :: readings posixAscii (startWorld "proj" 10 11)
          [Step.event ⟨"a.go", fsnotify.Write⟩ 20, Step.autoSave 25 none none,
            Step.event ⟨"a.go", fsnotify.Write⟩ 30, Step.shutdown 40 none none]) ∧
      (run posixAscii (startWorld "proj" 10 11)
          [Step.event ⟨"a.go", fsnotify.Write⟩ 20, Step.autoSave 25 none none]).activeSession.LastUpdate ≤
        (run posixAscii (startWorld "proj" 10 11)
          ([Step.event ⟨"a.go", fsnotify.Write⟩ 20, Step.autoSave 25 none none] ++
            [Step.event ⟨"a.go", fsnotify.Write⟩ 30])).activeSession.LastUpdate :=
  ⟨List.chain'_iff_pairwise.mpr (by decide),
    (lastUpdate_never_decreases posixAscii "proj" 10 11
      [Step.event ⟨"a.go", fsnotify.Write⟩ 20, Step.autoSave 25 none none,
        Step.event ⟨"a.go", fsnotify.Write⟩ 30, Step.shutdown 40 none none]
      (List.chain'_iff_pairwise.mpr (by decide))).2
      [Step.event ⟨"a.go", fsnotify.Write⟩ 20, Step.autoSave 25 none none]
      (Step.event ⟨"a.go", fsnotify.Write⟩ 30) [Step.shutdown 40 none none] rfl⟩

/-- C6. Whatever `os.MkdirAll` and `os.WriteFile` answer, `saveSession`
changes no field of the session other than `Duration`. Hence two passes in a
row over a session nothing else touched write, whenever both write, documents
with the same `folder`, `started_at`, `last_update` and `changed_paths` under
the same file name; and a pass whose two system calls succeed does write one
document, the session as it stands after the pass. -/
theorem saveSession_changes_only_duration (L : Lib) (w : World) (final1 final2 : Bool)
    (now1 now2 : Time) (me1 we1 me2 we2 : Option String) :
    ((saveSession L final1 now1 me1 we1 w).activeSession.Folder = w.activeSession.Folder ∧
      (saveSession L final1 now1 me1 we1 w).activeSession.StartedAt =
        w.activeSession.StartedAt ∧
      (saveSession L final1 now1 me1 we1 w).activeSession.LastUpdate =
        w.activeSession.LastUpdate ∧
      (saveSession L final1 now1 me1 we1 w).activeSession.ChangedPaths =
        w.activeSession.ChangedPaths) ∧
    (∀ x1 ∈ newWrites w (saveSession L final1 now1 me1 we1 w),
      ∀ x2 ∈ newWrites (saveSession L final1 now1 me1 we1 w)
          (saveSession L final2 now2 me2 we2 (saveSession L final1 now1 me1 we1 w)),
        x1.1 = x2.1 ∧ x1.2.folder = x2.2.folder ∧ x1.2.started_at = x2.2.started_at ∧
          x1.2.last_update = x2.2.last_update ∧ x1.2.changed_paths = x2.2.changed_paths) ∧
    newWrites w (saveSession L final1 now1 none none w) =
      [(logFileName L w.activeSession.StartedAt,
        marshal (saveSession L final1 now1 none none w).activeSession)] := by
  refine ⟨?_, ?_, ?_⟩
  · rw [saveSession_session]
    exact ⟨rfl, rfl, rfl, rfl⟩
  · intro x1 h1 x2 h2
    rw [saveSession_newWrites] at h1 h2
    split at h1
    · split at h2
      · rw [List.mem_singleton] at h1 h2
        rw [h1, h2]
        simp [saveSession_session, marshal]
      · exact absurd h2 (List.not_mem_nil _)
    · exact absurd h1 (List.not_mem_nil _)
  · rw [saveSession_newWrites]
    simp

/-- C6 on a periodic pass followed by the final pass, the clock having moved:
both documents carry the same folder. -/
theorem saveSession_changes_only_duration_witness :
    (marshal (saveSession posixAscii false 50 none none
        (startWorld "proj" 10 11)).activeSession).folder =
      (marshal (saveSession posixAscii true 60 none none
        (saveSession posixAscii false 50 none none
          (startWorld "proj" 10 11))).activeSession).folder :=
  ((saveSession_changes_only_duration posixAscii (startWorld "proj" 10 11) false true 50 60
      none none none none).2.1
    (logFileName posixAscii 10,
      marshal (saveSession posixAscii false 50 none none (startWorld "proj" 10 11)).activeSession)
    (by rw [saveSession_newWrites]; simp [startWorld, newSession])
    (logFileName posixAscii 10,
      marshal (saveSession posixAscii true 60 none none
        (saveSession posixAscii false 50 none none (startWorld "proj" 10 11))).activeSession)
    (by
      rw [saveSession_newWrites]
      simp [startWorld, newSession, saveSession_session])).2.1

/-- C7. The file name a persistence pass computes is a function of the start
time alone: in every state a serialized run reaches from construction, a pass,
periodic or final and whatever its clock reading, writes (when it writes) to
`filepath.Join("logs", <StartedAt formatted> + ".json")` for the `StartedAt`
stamped at construction, and every file the run has written bears that
name. -/
theorem log_path_fixed_by_start (L : Lib) (folder : String) (t1 t2 : Time)
    (steps : List Step) :
    logFileName L (run L (startWorld folder t1 t2) steps).activeSession.StartedAt =
        L.joinPath "logs" (L.formatStamp t1 ++ ".json") ∧
    (∀ (final : Bool) (now : Time) (mkdirErr writeErr : Option String),
      newWrites (run L (startWorld folder t1 t2) steps)
          (saveSession L final now mkdirErr writeErr (run L (startWorld folder t1 t2) steps)) =
        if mkdirErr = none ∧ writeErr = none then
          [(L.joinPath "logs" (L.formatStamp t1 ++ ".json"),
            marshal (saveSession L final now mkdirErr writeErr
              (run L (startWorld folder t1 t2) steps)).activeSession)]
        else []) ∧
    ∀ x ∈ (run L (startWorld folder t1 t2) steps).writes,
      x.1 = L.joinPath "logs" (L.formatStamp t1 ++ ".json") := by
  have hst : (run L (startWorld folder t1 t2) steps).activeSession.StartedAt = t1 :=
    (run_frame L steps (startWorld folder t1 t2)).1
  refine ⟨by rw [hst]; rfl, ?_, ?_⟩
  · intro final now mkdirErr writeErr
    rw [saveSession_newWrites, hst]
    rfl
  · intro x hx
    exact run_writes_names L steps (startWorld folder t1 t2)
      (fun y hy => absurd hy (List.not_mem_nil _)) x hx

/-- C7 on a run with two periodic passes around an event and the final pass:
the three files written share one name. -/
theorem log_path_fixed_by_start_witness :
    logFileName posixAscii 10 = "logs/1970-01-01_00-00-00.json" ∧
    ((run posixAscii (startWorld "proj" 10 11)
      [Step.autoSave 20 none none, Step.event ⟨"a.go", fsnotify.Write⟩ 25,
        Step.autoSave 30 none none, Step.shutdown 40 none none]).writes.map Prod.fst).length = 3 ∧
    ∀ x ∈ (run posixAscii (startWorld "proj" 10 11)
      [Step.autoSave 20 none none, Step.event ⟨"a.go", fsnotify.Write⟩ 25,
        Step.autoSave 30 none none, Step.shutdown 40 none none]).writes,
      x.1 = posixAscii.joinPath "logs" (posixAscii.formatStamp 10 ++ ".json") :=
  ⟨by decide, by decide,
    (log_path_fixed_by_start posixAscii "proj" 10 11
      [Step.autoSave 20 none none, Step.event ⟨"a.go", fsnotify.Write⟩ 25,
        Step.autoSave 30 none none, Step.shutdown 40 none none]).2.2⟩

/-- C8, as the code has it. Whatever the other tasks do meanwhile, the final
pass prints the summary only when `os.MkdirAll` and `os.WriteFile` both
succeed: then it prints the saved file name, a duration, a count and a list
of paths, each as the session holds it when its line is printed; when either
call fails it prints one error line and no summary. A periodic pass prints no
summary line. If no other task writes the session while the final pass runs,
the document written is the session as it stands after the pass, and the
summary reports the recomputed duration, the length of `ChangedPaths` and
every element of `ChangedPaths` in order. With no other task running at all
the pass is `saveSession` taken as one step. -/
theorem final_summary_when_saved (L : Lib) (now : Time) (w : World)
    (gap loopGap : Nat → List Other) :
    (∀ (err : String) (writeErr : Option String),
      (saveSessionTrace L true now (some err) writeErr gap loopGap w).printed =
        [Line.mkdirFailed err]) ∧
    (∀ err : String,
      (saveSessionTrace L true now none (some err) gap loopGap w).printed =
        [Line.writeFailed err]) ∧
    (∃ (d : String) (n : Nat) (ps : List String),
      (saveSessionTrace L true now none none gap loopGap w).printed =
        [Line.finalSaved (logFileName L w.activeSession.StartedAt), Line.duration d,
          Line.total n] ++ ps.map Line.path) ∧
    (∀ (mkdirErr writeErr : Option String),
      ∀ l ∈ (saveSessionTrace L false now mkdirErr writeErr gap loopGap w).printed,
        l.isSummary = false) ∧
    (undisturbed gap loopGap →
      (saveSessionTrace L true now none none gap loopGap w).written =
          some (logFileName L w.activeSession.StartedAt,
            marshal (saveSessionTrace L true now none none gap loopGap w).world.activeSession) ∧
        (saveSessionTrace L true now none none gap loopGap w).printed =
          [Line.finalSaved (logFileName L w.activeSession.StartedAt),
            Line.duration
              (saveSessionTrace L true now none none gap loopGap w).world.activeSession.Duration,
            Line.total
              (saveSessionTrace L true now none none gap loopGap
                w).world.activeSession.ChangedPaths.length] ++
            (saveSessionTrace L true now none none gap loopGap
              w).world.activeSession.ChangedPaths.map Line.path ∧
        (saveSessionTrace L true now none none gap loopGap w).world.activeSession =
          { w.activeSession with
            Duration := L.durationString (since now w.activeSession.StartedAt) }) ∧
    ∀ (final : Bool) (mkdirErr writeErr : Option String),
      (saveSessionTrace L final now mkdirErr writeErr noOthers noOthers w).world =
        saveSession L final now mkdirErr writeErr w := by
  refine ⟨?_, ?_, ?_, ?_, ?_, ?_⟩
  · intro err writeErr
    rfl
  · intro err
    rfl
  · simp only [saveSessionTrace, interfere_startedAt, if_true]
    exact ⟨_, _, _, rfl⟩
  · intro mkdirErr writeErr l hl
    cases mkdirErr with
    | some e =>
      simp only [saveSessionTrace, List.mem_singleton] at hl
      rw [hl]; rfl
    | none =>
      cases writeErr with
      | some e =>
        simp only [saveSessionTrace, List.mem_singleton] at hl
        rw [hl]; rfl
      | none => simp [saveSessionTrace] at hl
  · intro hq
    have hg : ∀ (n : Nat) (x : World), (interfere x (gap n)).activeSession = x.activeSession :=
      fun n x => interfere_quiet _ x (hq.1 n)
    have hl : ∀ (ps : List String) (i : Nat) (x : World),
        (printPaths loopGap i ps x).activeSession = x.activeSession :=
      fun ps i x => printPaths_quiet loopGap hq.2 ps i x
    refine ⟨?_, ?_, ?_⟩ <;>
      simp [saveSessionTrace, hl, hg, say, interfere_startedAt]
  · intro final mkdirErr writeErr
    exact saveSessionTrace_noOthers L final now mkdirErr writeErr w

/-- C8 on a final pass during which the watcher only reports an error: the
document written is the session after the pass, with the one changed path. -/
theorem final_summary_when_saved_witness :
    undisturbed quietGap noOthers ∧
      (saveSessionTrace posixAscii true 40 none none quietGap noOthers
          (handleEvent posixAscii 20 (startWorld "proj" 10 11)
            ⟨"foo.go", fsnotify.Create⟩)).written =
        some (logFileName posixAscii 10,
          marshal (saveSessionTrace posixAscii true 40 none none quietGap noOthers
            (handleEvent posixAscii 20 (startWorld "proj" 10 11)
              ⟨"foo.go", fsnotify.Create⟩)).world.activeSession) ∧
      (saveSessionTrace posixAscii true 40 none none quietGap noOthers
          (handleEvent posixAscii 20 (startWorld "proj" 10 11)
            ⟨"foo.go", fsnotify.Create⟩)).world.activeSession.ChangedPaths = ["foo.go"] :=
  have hq : undisturbed quietGap noOthers :=
    ⟨fun n o ho => by
        by_cases hn : n = 142
        · simp only [quietGap, hn, if_true, List.mem_singleton] at ho
          rw [ho]; rfl
        · simp [quietGap, hn] at ho,
      fun i o ho => by simp [noOthers] at ho⟩
  ⟨hq,
    ((final_summary_when_saved posixAscii 40
      (handleEvent posixAscii 20 (startWorld "proj" 10 11) ⟨"foo.go", fsnotify.Create⟩)
      quietGap noOthers).2.2.2.2.1 hq).1,
    by decide⟩

/-- C8 as stated fails: a final pass whose `os.WriteFile` fails, over a session
with one changed path, prints the error line and nothing of the summary. -/
theorem final_pass_without_summary :
    newLines (handleEvent posixAscii 20 (startWorld "proj" 10 11) ⟨"foo.go", fsnotify.Create⟩)
        (saveSession posixAscii true 40 none (some "disk full")
          (handleEvent posixAscii 20 (startWorld "proj" 10 11) ⟨"foo.go", fsnotify.Create⟩)) =
      [Line.writeFailed "disk full"] ∧
    (saveSession posixAscii true 40 none (some "disk full")
      (handleEvent posixAscii 20 (startWorld "proj" 10 11)
        ⟨"foo.go", fsnotify.Create⟩)).console.any Line.isSummary = false := by
  decide

/-- C9 on the code. The end of `main` calls `saveSession(true)` without taking
`sessionLock`, so its statements touch `activeSession` with the lock free and
break the discipline, for every outcome of the pass; the loop of `autoSaveLog`
wraps the same call in `Lock`/`Unlock` and keeps the discipline, and so does
the event branch of `monitorFolder`. -/
theorem shutdown_saves_without_lock (mkdirErr writeErr : Option String) (n : Nat) :
    disciplined false (shutdownActs mkdirErr writeErr n) = false ∧
      disciplined false (autoSaveLogActs mkdirErr writeErr n) = true ∧
      (∀ pass known : Bool, disciplined false (monitorEventActs pass known) = true) ∧
      disciplined false monitorErrorActs = true := by
  refine ⟨?_, ?_, ?_, by decide⟩
  · simp [shutdownActs, saveSessionActs, disciplined]
  · cases mkdirErr <;> cases writeErr <;>
      simp [autoSaveLogActs, saveSessionActs, disciplined]
  · intro pass known
    cases pass <;> cases known <;> simp [monitorEventActs, disciplined]

end CodeTimer
